import Mathlib

/-!
Shallow embedding of the UI hierarchy indexing / element resolution engine of
the `auto_test` repository, together with theorems settling the frozen claims
about it.

Modules embedded (Python source file → Lean namespace):
* `src/utils/element_dictionary.py`   → `EDict`   (index builder + resolver)
* `src/ui_automator/element_parser.py`→ `EParse`  (hierarchy parser, bounds,
                                                   clickable-ancestor search)
* `src/ui_automator/interaction_handler.py` → `UiIH` (scroll-assisted click)
* `src/ai_interface/ai_client.py`     → `AIC`    (retry/backoff wrapper)
* `src/utils/interaction_handler.py`  → `UtilIH` (action dispatch, swipe, home)

Python dictionaries are modelled as association lists with dict semantics:
`dinsert` overwrites in place (preserving the position of the first insertion,
exactly as CPython insertion-ordered dicts do) and `dget` is `dict.get`.
Iterating `.items()` is iterating the association list.
-/

namespace AutoTest

/-- Model of `dict.get k`: first (unique) binding of `k`. -/
def dget [DecidableEq κ] (l : List (κ × α)) (k : κ) : Option α :=
  match l with
  | [] => none
  | (k', v) :: rest => if k' = k then some v else dget rest k

/-- Model of `dict[k] = v`: overwrite in place if present (keeping iteration position,
as CPython dicts do), else append at the end. -/
def dinsert [DecidableEq κ] (k : κ) (v : α) (l : List (κ × α)) : List (κ × α) :=
  match l with
  | [] => [(k, v)]
  | (k', v') :: rest => if k' = k then (k, v) :: rest else (k', v') :: dinsert k v rest

/-- Model of `by_class[k].append(v)` after a `setdefault`-style guard, as in the source. -/
def dappend [DecidableEq κ] (k : κ) (v : α) (l : List (κ × List α)) : List (κ × List α) :=
  match dget l k with
  | some xs => dinsert k (xs ++ [v]) l
  | none => dinsert k [v] l

/-- Python `needle in hay` on strings: contiguous-substring containment. -/
def strIn (needle hay : String) : Bool :=
  decide (needle.data <:+: hay.data)

/-- Python `c in s` for a single character. -/
def hasChar (s : String) (c : Char) : Bool :=
  s.data.contains c

/-- ASCII lower-casing of one character (the case the code relies on; CPython
`str.lower` agrees on ASCII). -/
def lowerChar (c : Char) : Char :=
  if 65 ≤ c.toNat ∧ c.toNat ≤ 90 then Char.ofNat (c.toNat + 32) else c

/-- ASCII upper-casing of one character. -/
def upperChar (c : Char) : Char :=
  if 97 ≤ c.toNat ∧ c.toNat ≤ 122 then Char.ofNat (c.toNat - 32) else c

/-- Python `s.lower()`. -/
def pyLower (s : String) : String :=
  ⟨s.data.map lowerChar⟩

/-- Python `s.upper()`. -/
def pyUpper (s : String) : String :=
  ⟨s.data.map upperChar⟩

/-- Python `s.split(sep)` for a one-character separator. -/
def splitChar (sep : Char) : List Char → List (List Char)
  | [] => [[]]
  | c :: rest =>
    if c = sep then [] :: splitChar sep rest
    else
      match splitChar sep rest with
      | h :: t => (c :: h) :: t
      | [] => [[c]]

/-- Python `s.split(sep)` for a one-character separator, on strings. -/
def pySplit (s : String) (sep : Char) : List String :=
  (splitChar sep s.data).map (⟨·⟩)

/-- Python `s.replace(a, b)` for one-character pattern and replacement. -/
def replaceChar (a b : Char) (s : String) : String :=
  ⟨s.data.map (fun c => if c = a then b else c)⟩

/-- Model of `bounds.replace("][", ",")` from the dictionary's bounds parsing. -/
def replaceBrackets : List Char → List Char
  | ']' :: '[' :: rest => ',' :: replaceBrackets rest
  | c :: rest => c :: replaceBrackets rest
  | [] => []

/-- Python `s.strip(chars)`: drop leading and trailing characters of the set. -/
def pyStrip (cs : List Char) (s : String) : String :=
  ⟨((s.data.dropWhile (· ∈ cs)).reverse.dropWhile (· ∈ cs)).reverse⟩

/-- ASCII digit run to a number (`none` on empty or non-digit input). -/
def digitsToNat (cs : List Char) : Option Nat :=
  if cs = [] then none
  else if cs.all Char.isDigit then
    some (cs.foldl (fun n c => 10 * n + (c.toNat - 48)) 0)
  else none

/-- Python `int(s)` on the strings this code feeds it: an optional sign
followed by decimal digits. -/
def pyInt (s : String) : Option Int :=
  match s.data with
  | '-' :: rest => (digitsToNat rest).map (fun n => -(n : Int))
  | cs => (digitsToNat cs).map (fun n => (n : Int))

/-- One node of the raw XML hierarchy dump: attributes and child nodes
(`xml.etree` element, restricted to what the code reads). -/
inductive XNode where
  | mk (attrib : List (String × String)) (children : List XNode)

def XNode.attrib : XNode → List (String × String)
  | .mk a _ => a

def XNode.children : XNode → List XNode
  | .mk _ c => c

/-- Model of `attrib.get(k, '')`. -/
def aget (a : List (String × String)) (k : String) : String :=
  (dget a k).getD ""

/-- Model of `resource_id.split('/')[-1]`, the short resource id. -/
def shortId (resource_id : String) : String :=
  (pySplit resource_id '/').getLastD ""

end AutoTest

namespace AutoTest.EDict

/-- Model of `coords` rectangle stored on a dictionary element
(`ImprovedElementDictionary._parse_elements`). -/
structure ElemCoords where
  left : Int
  top : Int
  right : Int
  bottom : Int
  center_x : Int
  center_y : Int
  width : Int
  height : Int
deriving DecidableEq, Repr

/-- The `element_info` record built for every parsed element.
The display-only `xpath` string field of the source is omitted: no lookup ever
reads it. -/
structure ElemInfo where
  name : String
  path : String
  etype : String
  text : String
  desc : String
  resource_id : String
  package : String
  visible : Bool
  enabled : Bool
  focused : Bool
  clickable : Bool
  long_clickable : Bool
  checkable : Bool
  checked : Bool
  scrollable : Bool
  editable : Bool
  possible_actions : List String
  coords : Option ElemCoords
  depth : Nat
  is_interactive : Bool
  children_count : Nat
deriving DecidableEq, Repr

/-- Model of `ImprovedElementDictionary` state: element store, interactive subset and
the four lookup indices.  Source element ids are fresh `uuid4` strings; they
are modelled by a deterministic fresh counter (`next_id`), which preserves
what the code relies on: ids are never reused. -/
structure Dict where
  elements : List (Nat × ElemInfo)
  interactive_elements : List (Nat × ElemInfo)
  by_text : List (String × Nat)
  by_resource_id : List (String × Nat)
  by_content_desc : List (String × Nat)
  by_class : List (String × List Nat)
  next_id : Nat
deriving DecidableEq, Repr

def emptyDict : Dict :=
  { elements := [], interactive_elements := [], by_text := [], by_resource_id := []
    by_content_desc := [], by_class := [], next_id := 0 }

/-- Model of `_generate_element_name`. -/
def _generate_element_name (resource_id text desc class_name : String) : String :=
  if resource_id ≠ "" ∧ hasChar resource_id '/' then
    shortId resource_id
  else if text ≠ "" then
    replaceChar '\n' '_' (replaceChar ' ' '_' (text.take 20))
  else if desc ≠ "" then
    replaceChar '\n' '_' (replaceChar ' ' '_' (desc.take 20))
  else if class_name ≠ "" then
    (pySplit class_name '.').getLastD ""
  else "element"

/-- Bounds parsing inside `_parse_elements`: `"][" → ","`, strip `[]`, split
on `,`, convert every piece with `int`; any failure (or fewer than four
numbers) leaves `coords` empty (`none`). -/
def parseCoords (bounds : String) : Option ElemCoords :=
  if bounds = "" then none
  else
    match (pySplit (pyStrip ['[', ']'] ⟨replaceBrackets bounds.data⟩) ',').mapM pyInt with
    | some (b0 :: b1 :: b2 :: b3 :: _) =>
      some { left := b0, top := b1, right := b2, bottom := b3
             center_x := (b0 + b2).fdiv 2, center_y := (b1 + b3).fdiv 2
             width := b2 - b0, height := b3 - b1 }
    | _ => none

/-- The `possible_actions` list (`interactions` in the source). -/
def interactionsOf (clickable long_clickable checkable scrollable editable : Bool) :
    List String :=
  (if clickable then ["点击"] else []) ++
  (if long_clickable then ["长按"] else []) ++
  (if checkable then ["勾选"] else []) ++
  (if scrollable then ["滚动"] else []) ++
  (if editable then ["编辑"] else [])

/-- Model of `current_path` of the child `c` at sibling index `i`. -/
def childPath (c : XNode) (i : Nat) (parent_path : String) : String :=
  let a := c.attrib
  let name := _generate_element_name (aget a "resource-id") (aget a "text")
      (aget a "content-desc") (aget a "class")
  if parent_path ≠ "" then parent_path ++ "/" ++ name ++ "[" ++ toString i ++ "]"
  else "/" ++ name ++ "[" ++ toString i ++ "]"

/-- The `element_info` record built for child `c` at sibling index `i` of
`_parse_elements`. -/
def elemInfoOf (c : XNode) (i : Nat) (parent_path : String) (depth : Nat) : ElemInfo :=
  let a := c.attrib
  let resource_id := aget a "resource-id"
  let text := aget a "text"
  let content_desc := aget a "content-desc"
  let class_name := aget a "class"
  let clickable := aget a "clickable" = "true"
  let long_clickable := aget a "long-clickable" = "true"
  let checkable := aget a "checkable" = "true"
  let scrollable := aget a "scrollable" = "true"
  let editable := aget a "editable" = "true"
  { name := _generate_element_name resource_id text content_desc class_name
    path := childPath c i parent_path
    etype := class_name, text := text
    desc := content_desc, resource_id := resource_id, package := aget a "package"
    visible := aget a "visible-to-user" = "true"
    enabled := aget a "enabled" = "true"
    focused := aget a "focused" = "true"
    clickable := clickable, long_clickable := long_clickable
    checkable := checkable, checked := aget a "checked" = "true"
    scrollable := scrollable, editable := editable
    possible_actions := interactionsOf clickable long_clickable checkable scrollable editable
    coords := parseCoords (aget a "bounds")
    depth := depth
    is_interactive := clickable ∨ long_clickable ∨ checkable ∨ scrollable ∨ editable
    children_count := c.children.length }

/-- Loop body of `_parse_elements` for one child `c` at sibling index `i`
(everything except the recursive descent): store the element under a fresh id
and extend each index whose key is non-empty. -/
def processChild (c : XNode) (i : Nat) (parent_path : String) (depth : Nat)
    (st : Dict) : Dict :=
  let info := elemInfoOf c i parent_path depth
  let eid := st.next_id
  { elements := dinsert eid info st.elements
    interactive_elements :=
      if info.is_interactive then dinsert eid info st.interactive_elements
      else st.interactive_elements
    by_text := if info.text ≠ "" then dinsert info.text eid st.by_text else st.by_text
    by_resource_id :=
      if info.resource_id ≠ "" then
        if hasChar info.resource_id '/' then
          dinsert (shortId info.resource_id) eid (dinsert info.resource_id eid st.by_resource_id)
        else dinsert info.resource_id eid st.by_resource_id
      else st.by_resource_id
    by_content_desc :=
      if info.desc ≠ "" then dinsert info.desc eid st.by_content_desc
      else st.by_content_desc
    by_class := if info.etype ≠ "" then dappend info.etype eid st.by_class else st.by_class
    next_id := eid + 1 }

mutual

/-- The `for i, child in enumerate(node)` loop of `_parse_elements`:
process each child, then recurse into its children. -/
def parseChildren : List XNode → Nat → String → Nat → Dict → Dict
  | [], _, _, _, st => st
  | c :: rest, i, pp, d, st =>
    let st1 := processChild c i pp d st
    let st2 := parseNode c (childPath c i pp) (d + 1) st1
    parseChildren rest (i + 1) pp d st2

/-- Model of `ImprovedElementDictionary._parse_elements` (recursive case on one node). -/
def parseNode : XNode → String → Nat → Dict → Dict
  | .mk _ ch, pp, d, st => parseChildren ch 0 pp d st

end

/-- Model of `ImprovedElementDictionary._parse_elements`. -/
def _parse_elements (node : XNode) (parent_path : String) (depth : Nat) (st : Dict) :
    Dict :=
  parseNode node parent_path depth st

/-- Index construction of `load_from_files`: reset the state, then
`_parse_elements(root)`. -/
def loadDict (root : XNode) : Dict :=
  _parse_elements root "" 0 emptyDict

/-- Model of `find_element_id(query, by)`. -/
def find_element_id (d : Dict) (query : String) (by_ : String) : Option Nat :=
  if by_ = "text" then dget d.by_text query
  else if by_ = "resource_id" then dget d.by_resource_id query
  else if by_ = "content_desc" then dget d.by_content_desc query
  else if by_ = "class" then
    match dget d.by_class query with
    | some (e :: _) => some e
    | _ => none
  else none

/-- First `.items()` entry of an index whose key contains `query`
case-insensitively (the scan inside `find_element_id_fuzzy`). -/
def fuzzyScan (idx : List (String × Nat)) (query : String) : Option Nat :=
  match idx with
  | [] => none
  | (k, eid) :: rest =>
    if strIn (pyLower query) (pyLower k) then some eid else fuzzyScan rest query

/-- Model of `find_element_id_fuzzy(query)`: text keys, then resource-id keys, then
content-description keys. -/
def find_element_id_fuzzy (d : Dict) (query : String) : Option Nat :=
  match fuzzyScan d.by_text query with
  | some eid => some eid
  | none =>
    match fuzzyScan d.by_resource_id query with
    | some eid => some eid
    | none => fuzzyScan d.by_content_desc query

/-- Model of `find_element(query, by)`.  For `by='auto'`: exact lookups in the order
text → resource_id → content_desc, then the fuzzy pass; the hit (an element
id) is dereferenced through `elements.get`. -/
def find_element (d : Dict) (query : String) (by_ : String) : Option ElemInfo :=
  let eid :=
    if by_ = "auto" then
      let e1 := find_element_id d query "text"
      let e2 := if e1.isSome then e1 else find_element_id d query "resource_id"
      let e3 := if e2.isSome then e2 else find_element_id d query "content_desc"
      if e3.isSome then e3 else find_element_id_fuzzy d query
    else find_element_id d query by_
  match eid with
  | some eid => dget d.elements eid
  | none => none

end AutoTest.EDict

namespace AutoTest.EParse

open AutoTest

/-- The `bounds` dictionary produced by `ElementParser._parse_bounds`. -/
structure BoundsJson where
  left : Int
  top : Int
  right : Int
  bottom : Int
  center_x : Int
  center_y : Int
deriving DecidableEq, Repr

/-- The default value returned when the bounds string does not match. -/
def zeroBounds : BoundsJson :=
  { left := 0, top := 0, right := 0, bottom := 0, center_x := 0, center_y := 0 }

/-- A maximal non-empty digit run (one `(\d+)` group of the regex). -/
def takeDigits (cs : List Char) : Option (Nat × List Char) :=
  let ds := cs.takeWhile Char.isDigit
  if ds = [] then none
  else some (ds.foldl (fun n c => 10 * n + (c.toNat - 48)) 0, cs.drop ds.length)

/-- One literal character of the regex. -/
def expectChar (c : Char) : List Char → Option (List Char)
  | c' :: rest => if c' = c then some rest else none
  | [] => none

/-- Model of `re.match(r'\[(\d+),(\d+)\]\[(\d+),(\d+)\]', s)`: anchored at the start
only (trailing characters are ignored, as `re.match` does); the four captured
groups on success.  Digits are read as ASCII (CPython's `\d` also accepts
other Unicode decimals, which device dumps never contain). -/
def matchBounds (s : String) : Option (Nat × Nat × Nat × Nat) := do
  let cs := s.data
  let cs ← expectChar '[' cs
  let (x1, cs) ← takeDigits cs
  let cs ← expectChar ',' cs
  let (y1, cs) ← takeDigits cs
  let cs ← expectChar ']' cs
  let cs ← expectChar '[' cs
  let (x2, cs) ← takeDigits cs
  let cs ← expectChar ',' cs
  let (y2, cs) ← takeDigits cs
  let _ ← expectChar ']' cs
  pure (x1, y1, x2, y2)

/-- Model of `ElementParser._parse_bounds`: the matched rectangle with its centre, or
the zero rectangle when the notation does not match. -/
def _parse_bounds (bounds_str : String) : BoundsJson :=
  match matchBounds bounds_str with
  | some (x1, y1, x2, y2) =>
    { left := x1, top := y1, right := x2, bottom := y2
      center_x := ((x1 + x2) / 2 : Nat), center_y := ((y1 + y2) / 2 : Nat) }
  | none => zeroBounds

/-- The JSON node structure produced by `ElementParser._parse_node`. -/
inductive NodeInfo where
  | mk (className resource_id text content_desc : String) (clickable : Bool)
      (bounds : BoundsJson) (path : String) (children : List NodeInfo)

def NodeInfo.bounds : NodeInfo → BoundsJson
  | .mk _ _ _ _ _ b _ _ => b

def NodeInfo.children : NodeInfo → List NodeInfo
  | .mk _ _ _ _ _ _ _ ch => ch

def NodeInfo.path : NodeInfo → String
  | .mk _ _ _ _ _ _ p _ => p

/-- Model of `re.sub(r'[^\w]', '_', s)` (ASCII reading of `\w`, which is what the
paths in scope contain). -/
def sanitizeWord (s : String) : String :=
  ⟨s.data.map (fun c => if c.isAlphanum ∨ c = '_' then c else '_')⟩

/-- The `current_path` computed by `_parse_node` for a node with attribute
list `a` under `parent_path`. -/
def nodePath (a : List (String × String)) (parent_path : String) : String :=
  let node_id := if (dget a "resource-id").isSome then shortId (aget a "resource-id") else ""
  let node_text := aget a "text"
  let node_class :=
    if (dget a "class").isSome then (pySplit (aget a "class") '.').getLastD "" else "node"
  if node_id ≠ "" then
    if parent_path ≠ "" then parent_path ++ "/" ++ node_id else node_id
  else if node_text ≠ "" then
    if parent_path ≠ "" then
      parent_path ++ "/" ++ node_class ++ "_" ++ sanitizeWord node_text
    else node_class ++ "_" ++ sanitizeWord node_text
  else
    if parent_path ≠ "" then parent_path ++ "/" ++ node_class else node_class

mutual

/-- Model of `ElementParser._parse_node`: recursive XML→JSON conversion.  (The
per-child `try/except` of the source never fires: the conversion is total.) -/
def _parse_node : XNode → String → NodeInfo
  | .mk a ch, parent_path =>
    let current_path := nodePath a parent_path
    .mk (aget a "class") (aget a "resource-id") (aget a "text") (aget a "content-desc")
      (aget a "clickable" = "true") (_parse_bounds (aget a "bounds")) current_path
      (_parse_node_list ch current_path)

/-- The `for child in node` loop of `_parse_node`. -/
def _parse_node_list : List XNode → String → List NodeInfo
  | [], _ => []
  | c :: rest, pp => _parse_node c pp :: _parse_node_list rest pp

end

mutual

/-- Every node of a parsed tree has non-negative bounds coordinates. -/
def allBoundsNonneg : NodeInfo → Bool
  | .mk _ _ _ _ _ b _ ch =>
    decide (0 ≤ b.left ∧ 0 ≤ b.top ∧ 0 ≤ b.right ∧ 0 ≤ b.bottom ∧
      0 ≤ b.center_x ∧ 0 ≤ b.center_y) && allBoundsNonnegList ch

def allBoundsNonnegList : List NodeInfo → Bool
  | [] => true
  | n :: rest => allBoundsNonneg n && allBoundsNonnegList rest

end

/-- The rewrite `"&" → "&amp;"`: the single corrective repair of `_xml_to_json`. -/
def escapeAmp : List Char → List Char
  | [] => []
  | '&' :: rest => '&' :: 'a' :: 'm' :: 'p' :: ';' :: escapeAmp rest
  | c :: rest => c :: escapeAmp rest

/-- Outcome of `ElementParser._xml_to_json`: either a converted tree, or the
result of `extract_simplified_elements` (the `device.dump()` fallback taken
when even the repaired input fails to parse). -/
inductive XmlOutcome where
  | tree (t : NodeInfo)
  | simplifiedDump (elems : List String)

/-- Model of `ElementParser._xml_to_json`.  `fromstring` models the external
`xml.etree.ElementTree.fromstring` (`some` = parse success), and `u2dump`
models the element list the `uiautomator2` `device.dump()` fallback returns. -/
def _xml_to_json (fromstring : String → Option XNode) (u2dump : List String)
    (xml_content : String) : XmlOutcome :=
  match fromstring xml_content with
  | some root => .tree (_parse_node root "")
  | none =>
    match fromstring ⟨escapeAmp xml_content.data⟩ with
    | some root => .tree (_parse_node root "")
    | none => .simplifiedDump u2dump

/-- The inputs `_xml_to_json` hands to the XML parser, in order: the raw dump
and, when that fails, the one amp-escaped repair — never anything further. -/
def xmlParseAttempts (fromstring : String → Option XNode) (xml_content : String) :
    List String :=
  match fromstring xml_content with
  | some _ => [xml_content]
  | none => [xml_content, ⟨escapeAmp xml_content.data⟩]

/-- A `uiautomator2` element handle as `find_element_by_text` and
`_find_clickable_parent` use it: the `.info` fields the code reads plus the
`.parent()` chain. -/
inductive UiObj where
  | mk (text resourceId className : String) (left top right bottom : Int)
      (clickable : Bool) (parent : Option UiObj)

def UiObj.text : UiObj → String
  | .mk t _ _ _ _ _ _ _ _ => t

def UiObj.resourceId : UiObj → String
  | .mk _ r _ _ _ _ _ _ _ => r

def UiObj.className : UiObj → String
  | .mk _ _ c _ _ _ _ _ _ => c

def UiObj.left : UiObj → Int
  | .mk _ _ _ l _ _ _ _ _ => l

def UiObj.top : UiObj → Int
  | .mk _ _ _ _ t _ _ _ _ => t

def UiObj.right : UiObj → Int
  | .mk _ _ _ _ _ r _ _ _ => r

def UiObj.bottom : UiObj → Int
  | .mk _ _ _ _ _ _ b _ _ => b

def UiObj.clickable : UiObj → Bool
  | .mk _ _ _ _ _ _ _ c _ => c

def UiObj.parent : UiObj → Option UiObj
  | .mk _ _ _ _ _ _ _ _ p => p

/-- The proper ancestors of an element, nearest first. -/
def UiObj.ancestors : UiObj → List UiObj
  | .mk _ _ _ _ _ _ _ _ none => []
  | .mk _ _ _ _ _ _ _ _ (some p) => p :: p.ancestors

/-- The `while parent and attempts < 5` loop of `_find_clickable_parent`,
entered with `parent = p`: return `p` if it is clickable, else move to its
parent, giving up once five candidates have been inspected. -/
def findParentLoop : UiObj → Nat → Option UiObj
  | .mk t r c l tp rr b cl none, attempts =>
    if attempts < 5 then
      (if cl then some (.mk t r c l tp rr b cl none) else none)
    else none
  | .mk t r c l tp rr b cl (some q), attempts =>
    if attempts < 5 then
      (if cl then some (.mk t r c l tp rr b cl (some q))
       else findParentLoop q (attempts + 1))
    else none

/-- Model of `ElementParser._find_clickable_parent`. -/
def _find_clickable_parent (element : UiObj) : Option UiObj :=
  match element.parent with
  | some p => findParentLoop p 0
  | none => none

/-- The flattened `bounds` dictionary in a `find_element_by_text` result. -/
structure FoundBounds where
  left : Int
  top : Int
  right : Int
  bottom : Int
  center_x : Int
  center_y : Int
deriving DecidableEq, Repr

/-- The result dictionary of `find_element_by_text` / `find_element_by_id`. -/
structure FoundInfo where
  text : String
  resource_id : String
  className : String
  bounds : FoundBounds
  clickable : Bool
deriving DecidableEq, Repr

/-- The result dictionary built from an element's own `.info`. -/
def infoOf (o : UiObj) : FoundInfo :=
  { text := o.text, resource_id := o.resourceId, className := o.className
    bounds := { left := o.left, top := o.top, right := o.right, bottom := o.bottom
                center_x := (o.left + o.right).fdiv 2
                center_y := (o.top + o.bottom).fdiv 2 }
    clickable := o.clickable }

/-- The `parent_result` dictionary: the promoted ancestor's own fields with
`clickable` hard-coded to `True`. -/
def promotedInfoOf (p : UiObj) : FoundInfo :=
  { infoOf p with clickable := true }

/-- Model of `self.device(text=...)` / `self.device(textContains=...)`: the first
element of the captured hierarchy (in device traversal order) matching the
selector. -/
def deviceFindText (dev : List UiObj) (text : String) (exact_match : Bool) : Option UiObj :=
  dev.find? (fun o => if exact_match then o.text = text else strIn text o.text)

/-- Model of `self.device(resourceId=...)`. -/
def deviceFindId (dev : List UiObj) (resource_id : String) : Option UiObj :=
  dev.find? (fun o => o.resourceId = resource_id)

/-- Model of `ElementParser.find_element_by_text` over a captured hierarchy `dev`:
build the result, and when the match is not clickable promote it to its
nearest clickable ancestor (bounded at 5 levels). -/
def find_element_by_text (dev : List UiObj) (text : String) (exact_match : Bool) :
    Option FoundInfo :=
  match deviceFindText dev text exact_match with
  | none => none
  | some el =>
    if el.clickable = false then
      match _find_clickable_parent el with
      | some p => some (promotedInfoOf p)
      | none => some (infoOf el)
    else some (infoOf el)

/-- Model of `ElementParser.find_element_by_id`: identical promotion logic for the
resource-id selector. -/
def find_element_by_id (dev : List UiObj) (resource_id : String) : Option FoundInfo :=
  match deviceFindId dev resource_id with
  | none => none
  | some el =>
    if el.clickable = false then
      match _find_clickable_parent el with
      | some p => some (promotedInfoOf p)
      | none => some (infoOf el)
    else some (infoOf el)

end AutoTest.EParse

namespace AutoTest.UiIH

/-- One scroll gesture issued by `src/ui_automator/interaction_handler.py`:
forward = `scroll_down` / `scroll_horizontal("right_to_left")`, reverse =
`scroll_up` / `scroll_horizontal("left_to_right")`. -/
inductive ScrollEv where
  | fwdVertical
  | fwdHorizontal
  | revVertical
  | revHorizontal
deriving DecidableEq, Repr

/-- The scripted device of the scroll-retry analysis: `present pos` states
whether the click target is visible in the viewport after `pos` forward
scroll steps (negative positions for over-restored viewports).  The target
lookup of `click_by_text` / `click_by_id` is this predicate. -/
def targetVisible (present : Int → Bool) (pos : Int) : Bool :=
  present pos

/-- The `for i in range(retry)` loop of `click_by_text` / `click_by_id`
against a static viewport: each iteration re-runs the same lookup. -/
def clickRetryLoop (present : Int → Bool) (pos : Int) : Nat → Bool
  | 0 => false
  | i + 1 => if targetVisible present pos then true else clickRetryLoop present pos i

/-- Model of `click_by_text(target)` (and the symmetric `click_by_id`): the default
`retry=3` lookup loop. -/
def click_by_target (present : Int → Bool) (pos : Int) : Bool :=
  clickRetryLoop present pos 3

/-- The `for i in range(scroll_attempts)` loop of `find_and_click_element`:
scroll one step (in the recommended direction), then retry the lookup.
Returns the outcome together with the viewport position reached and the
scroll gestures issued. -/
def scrollSearchLoop (present : Int → Bool) (horiz : Bool) :
    Nat → Int → List ScrollEv → Bool × Int × List ScrollEv
  | 0, pos, evs => (false, pos, evs)
  | i + 1, pos, evs =>
    let evs := evs ++ [if horiz then ScrollEv.fwdHorizontal else ScrollEv.fwdVertical]
    let pos' := pos + 1
    if click_by_target present pos' then (true, pos', evs)
    else scrollSearchLoop present horiz i pos' evs

/-- The `for i in range(min(scroll_attempts, 2))` restore loop. -/
def restoreEvents (horiz : Bool) (n : Nat) : List ScrollEv :=
  List.replicate (min n 2) (if horiz then ScrollEv.revHorizontal else ScrollEv.revVertical)

/-- Model of `InteractionHandler.find_and_click_element` over the scripted device:
direct lookup, then `scroll_attempts` scroll-and-retry cycles, then at most
two corrective reverse scrolls before reporting failure. -/
def find_and_click_element (present : Int → Bool) (horiz : Bool)
    (scroll_attempts : Nat) : Bool × List ScrollEv :=
  if click_by_target present 0 then (true, [])
  else
    match scrollSearchLoop present horiz scroll_attempts 0 [] with
    | (true, _, evs) => (true, evs)
    | (false, _, evs) => (false, evs ++ restoreEvents horiz scroll_attempts)

/-- Forward scroll gestures in a trace. -/
def countFwd (evs : List ScrollEv) : Nat :=
  (evs.filter (fun e => e = ScrollEv.fwdVertical ∨ e = ScrollEv.fwdHorizontal)).length

/-- Reverse (corrective) scroll gestures in a trace. -/
def countRev (evs : List ScrollEv) : Nat :=
  (evs.filter (fun e => e = ScrollEv.revVertical ∨ e = ScrollEv.revHorizontal)).length

end AutoTest.UiIH

namespace AutoTest.AIC

/-- What one attempt of `requests.post` comes back with, as
`create_chat_completion` distinguishes the cases: a 200 response with
extracted content, a non-200 HTTP status, a `requests.exceptions.Timeout`,
or any other exception. -/
inductive ApiResp where
  | ok (content : String)
  | httpStatus (code : Nat)
  | timeout
  | excp
deriving DecidableEq, Repr

/-- The recursive retry structure of `create_chat_completion`.  `resp n` is
the outcome of the request sent with `retry_count = n`; `remaining` is
`max_retries - retry_count`, so the source's retry guard
`retry_count < max_retries` is `remaining > 0`.  The result pairs the
returned content (`none` on failure) with the list of backoff waits
(`min(2 ** retry_count, 8)` seconds) slept before each retry. -/
def retryGo (resp : Nat → ApiResp) : Nat → Nat → Option String × List Nat
  | rc, remaining =>
    match resp rc, remaining with
    | .ok c, _ => (some c, [])
    | .httpStatus code, r + 1 =>
      if code = 429 then
        let w := min (2 ^ rc) 8
        let rest := retryGo resp (rc + 1) r
        (rest.1, w :: rest.2)
      else (none, [])
    | .httpStatus _, 0 => (none, [])
    | .timeout, r + 1 =>
      let w := min (2 ^ rc) 8
      let rest := retryGo resp (rc + 1) r
      (rest.1, w :: rest.2)
    | .timeout, 0 => (none, [])
    | .excp, r + 1 =>
      let w := min (2 ^ rc) 8
      let rest := retryGo resp (rc + 1) r
      (rest.1, w :: rest.2)
    | .excp, 0 => (none, [])

/-- Model of `AIClient.create_chat_completion(messages)`: the entry call with
`retry_count = 0` and the configured `max_retries` (3 in the source). -/
def create_chat_completion (resp : Nat → ApiResp) (max_retries : Nat) :
    Option String × List Nat :=
  retryGo resp 0 max_retries

/-- The transient failure classes the code retries: HTTP 429 and timeouts
(the claim's classes); the blanket `except Exception` branch retries too. -/
def transient (r : ApiResp) : Prop :=
  r = ApiResp.httpStatus 429 ∨ r = ApiResp.timeout

end AutoTest.AIC

namespace AutoTest.UtilIH

open AutoTest.EDict

/-- A device primitive invoked by `src/utils/interaction_handler.py`
(gesture durations in milliseconds: the source's 1.0 / 0.5 / 0.2 seconds). -/
inductive DevEv where
  | clickXY (x y : Int)
  | swipeXY (x1 y1 x2 y2 : Int) (durationMs : Nat)
  | pressKey (key : String)
  | clearText
  | sendKeys (text : String)
  | appStart (package : String)
deriving DecidableEq, Repr

/-- Model of `InteractionHandler.click_element`: resolve, require `clickable` and a
non-empty `coords` dict, then click the centre. -/
def click_element (d : Dict) (query by_ : String) : Bool × List DevEv :=
  match find_element d query by_ with
  | some e =>
    match e.coords with
    | some c =>
      if e.clickable then (true, [DevEv.clickXY c.center_x c.center_y])
      else (false, [])
    | none => (false, [])
  | none => (false, [])

/-- Model of `InteractionHandler.input_text`: resolve, require `editable`, then click
to focus, clear and type.  (On an editable element whose `coords` dict is
empty the source raises `KeyError`; no claim reaches that path and it is
modelled as failure.) -/
def input_text (d : Dict) (query text by_ : String) : Bool × List DevEv :=
  match find_element d query by_ with
  | some e =>
    if e.editable then
      match e.coords with
      | some c =>
        (true, [DevEv.clickXY c.center_x c.center_y, DevEv.clearText, DevEv.sendKeys text])
      | none => (false, [])
    else (false, [])
  | none => (false, [])

/-- Model of `InteractionHandler.check_element`: resolve, require `checkable`, click
the centre.  (Same `coords` caveat as `input_text`.) -/
def check_element (d : Dict) (query by_ : String) : Bool × List DevEv :=
  match find_element d query by_ with
  | some e =>
    if e.checkable then
      match e.coords with
      | some c => (true, [DevEv.clickXY c.center_x c.center_y])
      | none => (false, [])
    else (false, [])
  | none => (false, [])

/-- Model of `duration_map.get(speed, 0.5)`, in milliseconds. -/
def swipeDurationMs (speed : String) : Nat :=
  if speed = "slow" then 1000
  else if speed = "normal" then 500
  else if speed = "fast" then 200
  else 500

/-- Model of `InteractionHandler.swipe_screen`: translate a symbolic direction into a
centred swipe covering the middle 40% of the screen; any direction not
(case-insensitively) `up`/`down`/`left`/`right` is rejected with no gesture.
(`int(height * 0.7)` and friends are taken at their exact rational value;
CPython binary-float truncation can differ by one pixel, which no claim
observes.) -/
def swipe_screen (width height : Nat) (direction speed : String) : Bool × List DevEv :=
  let center_x : Int := (width / 2 : Nat)
  let center_y : Int := (height / 2 : Nat)
  let durationMs := swipeDurationMs speed
  let dir := pyLower direction
  if dir = "up" then
    (true, [DevEv.swipeXY center_x (height * 7 / 10 : Nat) center_x (height * 3 / 10 : Nat) durationMs])
  else if dir = "down" then
    (true, [DevEv.swipeXY center_x (height * 3 / 10 : Nat) center_x (height * 7 / 10 : Nat) durationMs])
  else if dir = "left" then
    (true, [DevEv.swipeXY (width * 7 / 10 : Nat) center_y (width * 3 / 10 : Nat) center_y durationMs])
  else if dir = "right" then
    (true, [DevEv.swipeXY (width * 3 / 10 : Nat) center_y (width * 7 / 10 : Nat) center_y durationMs])
  else (false, [])

/-- Model of `InteractionHandler.wait_for_element`: the 0.5-second polling loop over
a static snapshot — it succeeds on the first poll iff the element resolves
and is visible, and polls zero times when the timeout is not positive. -/
def wait_for_element (d : Dict) (query by_ : String) (timeout : Int) : Bool × List DevEv :=
  if 0 < timeout then
    match find_element d query by_ with
    | some e => (e.visible, [])
    | none => (false, [])
  else (false, [])

/-- Model of `InteractionHandler.back`: press the back key; always succeeds. -/
def back : Bool × List DevEv :=
  (true, [DevEv.pressKey "back"])

/-- Model of `InteractionHandler.home`: press the home key; always succeeds.  (This
is the entire HOME implementation of the module: no verification of arrival
and no gesture fallback exist in the source.) -/
def home : Bool × List DevEv :=
  (true, [DevEv.pressKey "home"])

/-- Model of `InteractionHandler.launch_app` (the `app_start` success path). -/
def launch_app (package_name : String) : Bool × List DevEv :=
  (true, [DevEv.appStart package_name])

/-- The `app_mapping` table of `find_and_perform_action`. -/
def app_mapping : List (String × String) :=
  [("设置", "com.android.settings"), ("短信", "com.android.mms"),
   ("电话", "com.android.dialer"), ("相机", "com.android.camera"),
   ("图库", "com.android.gallery"), ("浏览器", "com.android.browser")]

/-- The `**kwargs` bag of `find_and_perform_action`. -/
structure Kwargs where
  text : Option String
  direction : Option String
  timeout : Option Int
deriving DecidableEq, Repr

def noKwargs : Kwargs :=
  { text := none, direction := none, timeout := none }

/-- Model of `InteractionHandler.find_and_perform_action`: upper-case the action type
and dispatch to the per-type handler. -/
def find_and_perform_action (d : Dict) (width height : Nat)
    (action_type target : String) (kwargs : Kwargs) : Bool × List DevEv :=
  let action_type := pyUpper action_type
  if action_type = "OPEN" then
    match dget app_mapping target with
    | some package_name => launch_app package_name
    | none => click_element d target "auto"
  else if action_type = "CLICK" then
    click_element d target "auto"
  else if action_type = "INPUT" then
    let text := kwargs.text.getD ""
    if text = "" then (false, [])
    else input_text d target text "auto"
  else if action_type = "SWIPE" then
    let direction := pyLower (kwargs.direction.getD "up")
    swipe_screen width height direction "normal"
  else if action_type = "CHECK" then
    check_element d target "auto"
  else if action_type = "WAIT" then
    wait_for_element d target "auto" (kwargs.timeout.getD 10)
  else if action_type = "BACK" then
    back
  else if action_type = "HOME" then
    home
  else (false, [])

end AutoTest.UtilIH

namespace AutoTest.Fixtures

open AutoTest AutoTest.EDict AutoTest.EParse

/-- A settings-like capture: one node carrying the visible text `WLAN` and a
sibling whose resource id merely contains `WLAN`. -/
def wlanTree : XNode :=
  .mk [] [
    .mk [("text", "WLAN"), ("class", "android.widget.TextView"),
         ("bounds", "[0,0][1080,120]"), ("clickable", "true")] [],
    .mk [("resource-id", "com.android.settings:id/WLAN"),
         ("class", "android.widget.FrameLayout"),
         ("bounds", "[0,120][1080,240]"), ("clickable", "true")] []]

def wlanDict : Dict :=
  loadDict wlanTree

/-- A capture whose only slash-bearing resource id is
`com.android.settings:id/WLAN_item`. -/
def shortIdTree : XNode :=
  .mk [] [
    .mk [("resource-id", "com.android.settings:id/WLAN_item"),
         ("class", "android.widget.LinearLayout"),
         ("bounds", "[0,0][1080,160]"), ("clickable", "true")] [],
    .mk [("text", "Battery"), ("class", "android.widget.TextView"),
         ("bounds", "[0,160][1080,320]")] []]

def shortIdDict : Dict :=
  loadDict shortIdTree

/-- A capture with one text-bearing node: the empty query resolves through
the fuzzy pass to it. -/
def emptyQueryTree : XNode :=
  .mk [] [
    .mk [("text", "Network"), ("class", "android.widget.TextView"),
         ("bounds", "[0,0][1080,120]"), ("clickable", "true")] [],
    .mk [("resource-id", "com.android.settings:id/item"),
         ("class", "android.widget.FrameLayout"),
         ("bounds", "[0,120][1080,240]")] []]

def emptyQueryDict : Dict :=
  loadDict emptyQueryTree

/-- A capture with a text-bearing node and a node whose resource id ends in
`/`, so that the empty string becomes an exact resource-id key. -/
def slashTree : XNode :=
  .mk [] [
    .mk [("text", "Network"), ("class", "android.widget.TextView"),
         ("bounds", "[0,0][1080,120]"), ("clickable", "true")] [],
    .mk [("resource-id", "com.android.settings:id/"),
         ("class", "android.widget.FrameLayout"),
         ("bounds", "[0,120][1080,240]")] []]

def slashDict : Dict :=
  loadDict slashTree

/-- A non-clickable `Wi-Fi` label nested three levels below a clickable
container, as seen through `uiautomator2` parent handles. -/
def wifiAncestor3 : UiObj :=
  .mk "" "com.android.settings:id/row" "android.widget.LinearLayout"
    0 300 1080 500 true none

def wifiAncestor2 : UiObj :=
  .mk "" "" "android.widget.RelativeLayout" 0 310 1080 490 false (some wifiAncestor3)

def wifiAncestor1 : UiObj :=
  .mk "" "" "android.widget.FrameLayout" 20 320 1060 480 false (some wifiAncestor2)

def wifiLeaf : UiObj :=
  .mk "Wi-Fi" "android:id/title" "android.widget.TextView"
    40 380 400 420 false (some wifiAncestor1)

def wifiDevice : List UiObj :=
  [wifiLeaf, wifiAncestor1, wifiAncestor2, wifiAncestor3]

/-- An XML parser stub for inputs on which `ET.fromstring` fails both on the
raw text and on its amp-escaped repair (for instance the dump `"<"`). -/
def alwaysMalformed : String → Option XNode :=
  fun _ => none

end AutoTest.Fixtures

namespace AutoTest.EDict

/-- Ids in the element store are always below the fresh-id counter. -/
def ElemsFresh (st : Dict) : Prop :=
  ∀ eid info, dget st.elements eid = some info → eid < st.next_id

/-- Every `by_resource_id` binding points at a stored element whose full or
short resource id is the key. -/
def RidSound (st : Dict) : Prop :=
  ∀ k eid, dget st.by_resource_id k = some eid →
    ∃ e, dget st.elements eid = some e ∧
      (e.resource_id = k ∨
       (hasChar e.resource_id '/' = true ∧ shortId e.resource_id = k))

/-- Every stored element with a non-empty resource id has its full key — and,
when the id contains `/`, its short key — present in `by_resource_id`. -/
def RidKeysPresent (st : Dict) : Prop :=
  ∀ eid e, dget st.elements eid = some e → e.resource_id ≠ "" →
    (dget st.by_resource_id e.resource_id).isSome = true ∧
    (hasChar e.resource_id '/' = true →
      (dget st.by_resource_id (shortId e.resource_id)).isSome = true)

/-- Every `by_text` binding has a non-empty key and points at a stored
element carrying that text. -/
def TextSound (st : Dict) : Prop :=
  ∀ k eid, dget st.by_text k = some eid →
    k ≠ "" ∧ ∃ e, dget st.elements eid = some e ∧ e.text = k

/-- Every `by_content_desc` binding has a non-empty key and points at a
stored element carrying that description. -/
def DescSound (st : Dict) : Prop :=
  ∀ k eid, dget st.by_content_desc k = some eid →
    k ≠ "" ∧ ∃ e, dget st.elements eid = some e ∧ e.desc = k

/-- The index invariants `_parse_elements` maintains. -/
def IndexInv (st : Dict) : Prop :=
  ElemsFresh st ∧ RidSound st ∧ RidKeysPresent st ∧ TextSound st ∧ DescSound st

end AutoTest.EDict

-- ===================== theorems =====================

namespace AutoTest

theorem dget_dinsert_self [DecidableEq κ] (l : List (κ × α)) (k : κ) (v : α) :
    dget (dinsert k v l) k = some v := by
  induction l with
  | nil => simp [dinsert, dget]
  | cons hd tl ih =>
    obtain ⟨k', v'⟩ := hd
    by_cases h : k' = k
    · simp [dinsert, dget, h]
    · simp [dinsert, dget, h, ih]

theorem dget_dinsert_ne [DecidableEq κ] (l : List (κ × α)) (k k' : κ) (v : α)
    (h : k' ≠ k) : dget (dinsert k v l) k' = dget l k' := by
  induction l with
  | nil => simp [dinsert, dget, Ne.symm h]
  | cons hd tl ih =>
    obtain ⟨k₀, v₀⟩ := hd
    by_cases h0 : k₀ = k
    · subst h0
      simp [dinsert, dget, Ne.symm h]
    · simp [dinsert, dget, h0, ih]

theorem dget_dinsert_isSome [DecidableEq κ] (l : List (κ × α)) (k k' : κ) (v : α)
    (h : (dget l k').isSome = true) : (dget (dinsert k v l) k').isSome = true := by
  by_cases hk : k' = k
  · subst hk; simp [dget_dinsert_self]
  · rwa [dget_dinsert_ne _ _ _ _ hk]

theorem dget_mem [DecidableEq κ] (l : List (κ × α)) (k : κ) (v : α)
    (h : dget l k = some v) : (k, v) ∈ l := by
  induction l with
  | nil => simp [dget] at h
  | cons hd tl ih =>
    obtain ⟨k', v'⟩ := hd
    by_cases hk : k' = k
    · subst hk
      simp [dget] at h
      simp [h]
    · simp [dget, hk] at h
      exact List.mem_cons_of_mem _ (ih h)

theorem strIn_empty_needle (s : String) : strIn "" s = true := by
  simp [strIn]

theorem splitChar_ne_nil (sep : Char) (cs : List Char) : splitChar sep cs ≠ [] := by
  cases cs with
  | nil => simp [splitChar]
  | cons c rest =>
    by_cases h : c = sep
    · simp [splitChar, h]
    · simp only [splitChar, if_neg h]
      cases hs : splitChar sep rest with
      | nil => simp [hs]
      | cons a t => simp [hs]

theorem splitChar_no_sep (sep : Char) (cs : List Char) :
    ∀ part ∈ splitChar sep cs, sep ∉ part := by
  induction cs with
  | nil =>
    intro part hp
    simp [splitChar] at hp
    simp [hp]
  | cons c rest ih =>
    intro part hp
    by_cases h : c = sep
    · simp only [splitChar, if_pos h, List.mem_cons] at hp
      rcases hp with hp | hp
      · simp [hp]
      · exact ih part hp
    · simp only [splitChar, if_neg h] at hp
      cases hs : splitChar sep rest with
      | nil => exact absurd hs (splitChar_ne_nil sep rest)
      | cons a t =>
        rw [hs] at hp
        rcases List.mem_cons.mp hp with hp | hp
        · subst hp
          intro hmem
          rcases List.mem_cons.mp hmem with hc | hc
          · exact h hc.symm
          · exact ih a (hs ▸ List.mem_cons_self a t) hc
        · exact ih part (hs ▸ List.mem_cons_of_mem a hp)

theorem getLastD_map_mk (l : List (List Char)) (hl : l ≠ []) :
    (l.map (fun cs => String.mk cs)).getLastD "" = ⟨l.getLast hl⟩ := by
  have hmapne : l.map (fun cs => String.mk cs) ≠ [] := by simpa using hl
  rw [List.getLastD_eq_getLast?, List.getLast?_eq_getLast _ hmapne, Option.getD_some,
    List.getLast_map]

theorem shortId_no_slash (r : String) : hasChar (shortId r) '/' = false := by
  have hne := splitChar_ne_nil '/' r.data
  have hmem : (splitChar '/' r.data).getLast hne ∈ splitChar '/' r.data :=
    List.getLast_mem hne
  have hno := splitChar_no_sep '/' r.data _ hmem
  have hsh : shortId r = ⟨(splitChar '/' r.data).getLast hne⟩ := by
    unfold shortId pySplit
    exact getLastD_map_mk _ hne
  rw [hsh]
  simp [hasChar]
  exact hno

theorem hasChar_ne_empty {r : String} (h : hasChar r '/' = true) : r ≠ "" := by
  intro hr
  subst hr
  simp [hasChar] at h

theorem shortId_ne_of_slash {r : String} (h : hasChar r '/' = true) : shortId r ≠ r := by
  intro he
  have := shortId_no_slash r
  rw [he] at this
  rw [h] at this
  exact Bool.true_eq_false.mp this

end AutoTest

namespace AutoTest

open AutoTest.EDict AutoTest.EParse AutoTest.UiIH AutoTest.AIC AutoTest.UtilIH

/-- C10: for every direction string that is not (case-insensitively) one of
`up`, `down`, `left`, `right`, `swipe_screen` returns `false` and issues no
gesture on the device. -/
theorem swipe_screen_invalid_direction (width height : Nat) (direction speed : String)
    (h : pyLower direction ∉ ["up", "down", "left", "right"]) :
    UtilIH.swipe_screen width height direction speed = (false, []) := by
  simp only [List.mem_cons, List.mem_singleton, not_or] at h
  obtain ⟨h1, h2, h3, h4⟩ := h
  simp [UtilIH.swipe_screen, h1, h2, h3, h4]

/-- Witness for C10: a diagonal swipe request is rejected without touching
the device. -/
theorem swipe_screen_invalid_direction_witness :
    UtilIH.swipe_screen 1080 1920 "Diagonal" "fast" = (false, []) :=
  swipe_screen_invalid_direction 1080 1920 "Diagonal" "fast" (by decide)

/-- C7 (counterexample): on a capture that is plainly not the home screen,
the HOME dispatch reports success after nothing but a single home-key press —
no home-screen indicator element is consulted and no edge-swipe gesture is
ever issued, contradicting the claimed verify-and-fallback behaviour and its
failure case. -/
theorem home_dispatch_counterexample :
    UtilIH.find_and_perform_action Fixtures.wlanDict 1080 1920 "HOME" "" UtilIH.noKwargs
      = (true, [UtilIH.DevEv.pressKey "home"]) := rfl

/-- C7 (amended): the HOME dispatch presses the home key exactly once and
always reports success, on every dictionary, screen size, target and
parameter bag; it performs no verification and no gesture fallback. -/
theorem home_dispatch_always_succeeds (d : Dict) (width height : Nat)
    (target : String) (kwargs : UtilIH.Kwargs) :
    UtilIH.find_and_perform_action d width height "HOME" target kwargs
      = (true, [UtilIH.DevEv.pressKey "home"]) := rfl

end AutoTest

namespace AutoTest.AIC

theorem retryGo_transient (resp : Nat → ApiResp) (h : ∀ i, transient (resp i)) :
    ∀ (remaining rc : Nat),
      retryGo resp rc remaining
        = (none, (List.range remaining).map (fun j => min (2 ^ (rc + j)) 8)) := by
  have step : ∀ (r rc : Nat),
      (2 ^ rc ⊓ 8 : Nat) :: (List.range r).map (fun j => min (2 ^ (rc + 1 + j)) 8)
        = (List.range (r + 1)).map (fun j => min (2 ^ (rc + j)) 8) := by
    intro r rc
    rw [List.range_succ_eq_map]
    simp only [List.map_cons, List.map_map, List.cons.injEq, Nat.add_zero]
    refine ⟨trivial, ?_⟩
    apply List.map_congr_left
    intro j _
    simp only [Function.comp_apply, Nat.succ_eq_add_one]
    have hj : rc + 1 + j = rc + (j + 1) := by omega
    rw [hj]
  intro remaining
  induction remaining with
  | zero =>
    intro rc
    rcases h rc with hr | hr <;> simp [retryGo, hr]
  | succ r ih =>
    intro rc
    rw [← step r rc]
    rcases h rc with hr | hr <;>
      simp [retryGo, hr, ih (rc + 1)]

/-- C5: a non-200, non-429 planner response is never retried — the call
fails immediately with no backoff wait — while a run of transient failures
(HTTP 429 rate-limits or timeouts) is retried up to `max_retries` times with
waits of `min(2 ** attempt, 8)` seconds before failing. -/
theorem ai_client_retry_policy (resp : Nat → ApiResp) (max_retries : Nat) :
    (∀ code, code ≠ 429 → resp 0 = ApiResp.httpStatus code →
      create_chat_completion resp max_retries = (none, [])) ∧
    ((∀ i, transient (resp i)) →
      create_chat_completion resp max_retries
        = (none, (List.range max_retries).map (fun i => min (2 ^ i) 8))) := by
  constructor
  · intro code hcode hresp
    cases max_retries with
    | zero => simp [create_chat_completion, retryGo, hresp]
    | succ r => simp [create_chat_completion, retryGo, hresp, hcode]
  · intro htrans
    rw [create_chat_completion, retryGo_transient resp htrans max_retries 0]
    simp

/-- Witness for C5: three consecutive 429 responses with `max_retries = 3`
produce exactly the waits 1 s, 2 s, 4 s and then failure, while a single 400
response fails at once with no wait. -/
theorem ai_client_retry_policy_witness :
    create_chat_completion (fun _ => ApiResp.httpStatus 429) 3 = (none, [1, 2, 4]) ∧
    create_chat_completion (fun _ => ApiResp.httpStatus 400) 3 = (none, []) := by
  constructor
  · have h := (ai_client_retry_policy (fun _ => ApiResp.httpStatus 429) 3).2
      (fun _ => Or.inl rfl)
    rw [h]
    decide
  · exact (ai_client_retry_policy (fun _ => ApiResp.httpStatus 400) 3).1 400 (by decide) rfl

end AutoTest.AIC

namespace AutoTest.UiIH

theorem clickRetryLoop_false (present : Int → Bool) (pos : Int)
    (h : present pos = false) : ∀ n, clickRetryLoop present pos n = false := by
  intro n
  induction n with
  | zero => rfl
  | succ i ih => simp [clickRetryLoop, targetVisible, h, ih]

theorem click_by_target_false (present : Int → Bool) (pos : Int)
    (h : present pos = false) : click_by_target present pos = false :=
  clickRetryLoop_false present pos h 3

theorem scrollSearchLoop_absent (present : Int → Bool) (horiz : Bool)
    (habsent : ∀ p, present p = false) :
    ∀ (n : Nat) (pos : Int) (evs : List ScrollEv),
      scrollSearchLoop present horiz n pos evs
        = (false, pos + n,
            evs ++ List.replicate n (if horiz then ScrollEv.fwdHorizontal else ScrollEv.fwdVertical)) := by
  intro n
  induction n with
  | zero => intro pos evs; simp [scrollSearchLoop]
  | succ i ih =>
    intro pos evs
    rw [scrollSearchLoop]
    rw [click_by_target_false present (pos + 1) (habsent (pos + 1))]
    simp only [Bool.false_eq_true, if_false]
    rw [ih (pos + 1)]
    have h1 : pos + 1 + (i : Int) = pos + ((i : Nat) + 1 : Nat) := by push_cast; ring
    have h2 : (evs ++ [if horiz then ScrollEv.fwdHorizontal else ScrollEv.fwdVertical])
          ++ List.replicate i (if horiz then ScrollEv.fwdHorizontal else ScrollEv.fwdVertical)
        = evs ++ List.replicate (i + 1)
            (if horiz then ScrollEv.fwdHorizontal else ScrollEv.fwdVertical) := by
      rw [List.append_assoc]
      congr 1
    rw [h1, h2]

theorem scrollSearchLoop_shape (present : Int → Bool) (horiz : Bool) :
    ∀ (n : Nat) (pos : Int) (evs : List ScrollEv),
      ∃ k, k ≤ n ∧
        (scrollSearchLoop present horiz n pos evs).2.2
          = evs ++ List.replicate k (if horiz then ScrollEv.fwdHorizontal else ScrollEv.fwdVertical) := by
  intro n
  induction n with
  | zero =>
    intro pos evs
    refine ⟨0, Nat.le_refl 0, ?_⟩
    simp [scrollSearchLoop]
  | succ i ih =>
    intro pos evs
    rw [scrollSearchLoop]
    by_cases hc : click_by_target present (pos + 1) = true
    · refine ⟨1, by omega, ?_⟩
      simp [hc]
    · rw [Bool.not_eq_true] at hc
      simp only [hc, Bool.false_eq_true, if_false]
      obtain ⟨k, hk, heq⟩ := ih (pos + 1)
        (evs ++ [if horiz then ScrollEv.fwdHorizontal else ScrollEv.fwdVertical])
      refine ⟨k + 1, by omega, ?_⟩
      rw [heq, List.append_assoc]
      congr 1

theorem countFwd_append (a b : List ScrollEv) :
    countFwd (a ++ b) = countFwd a + countFwd b := by
  simp [countFwd, List.filter_append]

theorem countRev_append (a b : List ScrollEv) :
    countRev (a ++ b) = countRev a + countRev b := by
  simp [countRev, List.filter_append]

theorem countFwd_replicate_fwd (horiz : Bool) (n : Nat) :
    countFwd (List.replicate n (if horiz then ScrollEv.fwdHorizontal else ScrollEv.fwdVertical)) = n := by
  cases horiz <;> simp [countFwd, List.filter_replicate]

theorem countRev_replicate_fwd (horiz : Bool) (n : Nat) :
    countRev (List.replicate n (if horiz then ScrollEv.fwdHorizontal else ScrollEv.fwdVertical)) = 0 := by
  cases horiz <;> simp [countRev, List.filter_replicate]

theorem countFwd_replicate_rev (horiz : Bool) (n : Nat) :
    countFwd (List.replicate n (if horiz then ScrollEv.revHorizontal else ScrollEv.revVertical)) = 0 := by
  cases horiz <;> simp [countFwd, List.filter_replicate]

theorem countRev_replicate_rev (horiz : Bool) (n : Nat) :
    countRev (List.replicate n (if horiz then ScrollEv.revHorizontal else ScrollEv.revVertical)) = n := by
  cases horiz <;> simp [countRev, List.filter_replicate]

/-- C4: when the click target is absent from every viewport, the find-and-
click operation performs exactly `scroll_attempts` scroll-then-relookup
cycles followed by exactly `min(scroll_attempts, 2)` corrective reverse
scrolls and returns `false`; and on every device script it performs at most
2 reverse scrolls and at most `scroll_attempts` forward scrolls. -/
theorem scroll_retry_bounded (present : Int → Bool) (horiz : Bool) (attempts : Nat) :
    ((∀ p, present p = false) →
      find_and_click_element present horiz attempts
        = (false,
            List.replicate attempts (if horiz then ScrollEv.fwdHorizontal else ScrollEv.fwdVertical)
              ++ List.replicate (min attempts 2)
                  (if horiz then ScrollEv.revHorizontal else ScrollEv.revVertical)) ∧
      countFwd (find_and_click_element present horiz attempts).2 = attempts ∧
      countRev (find_and_click_element present horiz attempts).2 = min attempts 2) ∧
    countRev (find_and_click_element present horiz attempts).2 ≤ 2 ∧
    countFwd (find_and_click_element present horiz attempts).2 ≤ attempts := by
  constructor
  · intro habsent
    have htrace : find_and_click_element present horiz attempts
        = (false,
            List.replicate attempts (if horiz then ScrollEv.fwdHorizontal else ScrollEv.fwdVertical)
              ++ List.replicate (min attempts 2)
                  (if horiz then ScrollEv.revHorizontal else ScrollEv.revVertical)) := by
      rw [find_and_click_element]
      rw [click_by_target_false present 0 (habsent 0)]
      simp only [Bool.false_eq_true, if_false]
      rw [scrollSearchLoop_absent present horiz habsent attempts 0 []]
      simp [restoreEvents, Nat.min_comm]
    refine ⟨htrace, ?_, ?_⟩
    · rw [htrace]
      simp [countFwd_append, countFwd_replicate_fwd, countFwd_replicate_rev]
    · rw [htrace]
      simp [countRev_append, countRev_replicate_fwd, countRev_replicate_rev]
  · rw [find_and_click_element]
    by_cases h0 : click_by_target present 0 = true
    · simp [h0, countFwd, countRev]
    · rw [Bool.not_eq_true] at h0
      simp only [h0, Bool.false_eq_true, if_false]
      obtain ⟨k, hk, hshape⟩ := scrollSearchLoop_shape present horiz attempts 0 []
      rcases hres : scrollSearchLoop present horiz attempts 0 [] with ⟨b, pos, evs⟩
      rw [hres] at hshape
      simp only [List.nil_append] at hshape
      cases b
      · simp only
        rw [hshape]
        constructor
        · rw [countRev_append, countRev_replicate_fwd]
          simp only [restoreEvents, Nat.zero_add, countRev_replicate_rev]
          omega
        · rw [countFwd_append, countFwd_replicate_fwd]
          simp only [restoreEvents, countFwd_replicate_rev]
          omega
      · simp only
        rw [hshape]
        constructor
        · rw [countRev_replicate_fwd]
          omega
        · rw [countFwd_replicate_fwd]
          omega

/-- Witness for C4: with the target absent on all three pages and vertical
scrolling, the dispatch scrolls down three times, scrolls back up twice and
fails. -/
theorem scroll_retry_bounded_witness :
    find_and_click_element (fun _ => false) false 3
      = (false, [ScrollEv.fwdVertical, ScrollEv.fwdVertical, ScrollEv.fwdVertical,
                 ScrollEv.revVertical, ScrollEv.revVertical]) ∧
    countFwd (find_and_click_element (fun _ => false) false 3).2 = 3 ∧
    countRev (find_and_click_element (fun _ => false) false 3).2 = 2 := by
  have h := (scroll_retry_bounded (fun _ => false) false 3).1 (fun _ => rfl)
  exact ⟨h.1.trans (by decide), h.2.1, h.2.2⟩

end AutoTest.UiIH

namespace AutoTest.EParse

theorem parse_bounds_nonneg (s : String) :
    0 ≤ (_parse_bounds s).left ∧ 0 ≤ (_parse_bounds s).top ∧
    0 ≤ (_parse_bounds s).right ∧ 0 ≤ (_parse_bounds s).bottom ∧
    0 ≤ (_parse_bounds s).center_x ∧ 0 ≤ (_parse_bounds s).center_y := by
  cases h : matchBounds s with
  | none => simp [_parse_bounds, h, zeroBounds]
  | some q =>
    obtain ⟨x1, y1, x2, y2⟩ := q
    simp only [_parse_bounds, h]
    refine ⟨by omega, by omega, by omega, by omega, by omega, by omega⟩

mutual

theorem parse_node_bounds_nonneg : ∀ (n : XNode) (pp : String),
    allBoundsNonneg (_parse_node n pp) = true
  | .mk a ch, pp => by
    rw [_parse_node, allBoundsNonneg]
    simp only [Bool.and_eq_true, decide_eq_true_eq]
    exact ⟨parse_bounds_nonneg (aget a "bounds"),
           parse_node_list_bounds_nonneg ch (nodePath a pp)⟩

theorem parse_node_list_bounds_nonneg : ∀ (l : List XNode) (pp : String),
    allBoundsNonnegList (_parse_node_list l pp) = true
  | [], _ => rfl
  | c :: rest, pp => by
    rw [_parse_node_list, allBoundsNonnegList]
    simp only [Bool.and_eq_true]
    exact ⟨parse_node_bounds_nonneg c pp, parse_node_list_bounds_nonneg rest pp⟩

end

/-- C3 (amended): bounds parsing is total, any string whose prefix does not
match the `[x1,y1][x2,y2]` notation is coerced to the zero rectangle, and
every parsed node's rectangle has non-negative coordinates — but crossed
coordinates inside well-formed notation are propagated as-is. -/
theorem bounds_parsing_total_nonneg :
    (∀ s, matchBounds s = none → _parse_bounds s = zeroBounds) ∧
    (∀ s, 0 ≤ (_parse_bounds s).left ∧ 0 ≤ (_parse_bounds s).top ∧
      0 ≤ (_parse_bounds s).right ∧ 0 ≤ (_parse_bounds s).bottom ∧
      0 ≤ (_parse_bounds s).center_x ∧ 0 ≤ (_parse_bounds s).center_y) ∧
    (∀ (root : XNode) (pp : String), allBoundsNonneg (_parse_node root pp) = true) := by
  refine ⟨?_, parse_bounds_nonneg, parse_node_bounds_nonneg⟩
  intro s h
  simp [_parse_bounds, h]

/-- Witness for C3 (amended): a string without the bracket notation is
coerced to the zero rectangle, and a well-formed one parses non-negatively. -/
theorem bounds_parsing_witness :
    _parse_bounds "12,3][4,5]" = zeroBounds ∧
    0 ≤ (_parse_bounds "[10,20][30,40]").left :=
  ⟨bounds_parsing_total_nonneg.1 "12,3][4,5]" (by decide),
   (bounds_parsing_total_nonneg.2.1 "[10,20][30,40]").1⟩

/-- C3 (counterexample): the crossed-coordinate string `[5,5][1,1]` matches
the regex and is propagated as-is, so the parsed rectangle violates
`right ≥ left` (and `bottom ≥ top`) instead of being coerced to zero. -/
theorem bounds_crossed_counterexample :
    _parse_bounds "[5,5][1,1]"
      = { left := 5, top := 5, right := 1, bottom := 1, center_x := 3, center_y := 3 } ∧
    (_parse_bounds "[5,5][1,1]").right < (_parse_bounds "[5,5][1,1]").left := by
  decide

/-- C6 (amended): `_xml_to_json` hands the XML parser at most two inputs —
the raw dump and, if that fails, the one amp-escaped repair — and when the
repaired input still fails it does not fail with a malformed-hierarchy
outcome but returns the `device.dump()`-based simplified extraction. -/
theorem xml_repair_once_then_dump_fallback (fromstring : String → Option XNode)
    (u2dump : List String) (s : String) :
    (xmlParseAttempts fromstring s).length ≤ 2 ∧
    (xmlParseAttempts fromstring s).head? = some s ∧
    ((xmlParseAttempts fromstring s).drop 1 = []
      ∨ (xmlParseAttempts fromstring s).drop 1 = [⟨escapeAmp s.data⟩]) ∧
    (fromstring s = none → fromstring ⟨escapeAmp s.data⟩ = none →
      _xml_to_json fromstring u2dump s = XmlOutcome.simplifiedDump u2dump) := by
  cases h : fromstring s with
  | some t =>
    refine ⟨by simp [xmlParseAttempts, h], by simp [xmlParseAttempts, h],
      Or.inl (by simp [xmlParseAttempts, h]), ?_⟩
    intro h1 _
    simp at h1
  | none =>
    refine ⟨by simp [xmlParseAttempts, h], by simp [xmlParseAttempts, h],
      Or.inr (by simp [xmlParseAttempts, h]), ?_⟩
    intro _ h2
    simp [_xml_to_json, h, h2]

/-- Witness for C6 (amended): the dump `"<"` fails to parse raw and after
the amp-escaping repair, and the call returns the simplified extraction. -/
theorem xml_repair_witness :
    _xml_to_json Fixtures.alwaysMalformed ["text:Settings"] "<"
      = XmlOutcome.simplifiedDump ["text:Settings"] :=
  (xml_repair_once_then_dump_fallback Fixtures.alwaysMalformed ["text:Settings"] "<").2.2.2
    rfl rfl

/-- C6 (counterexample): on the unparseable dump `"<"` (still unparseable
after the single amp-escaping repair) the parser does not fail with a
malformed-hierarchy outcome — it recovers a third way, returning the element
list obtained from the `device.dump()` fallback. -/
theorem xml_fallback_counterexample :
    _xml_to_json Fixtures.alwaysMalformed ["button:OK"] "<"
      = XmlOutcome.simplifiedDump ["button:OK"] := rfl

end AutoTest.EParse

namespace AutoTest.EParse

theorem findParentLoop_unfold_none (t r c : String) (l tp rr b : Int) (cl : Bool)
    (a : Nat) :
    findParentLoop (UiObj.mk t r c l tp rr b cl none) a
      = if a < 5 then
          (if cl then some (UiObj.mk t r c l tp rr b cl none) else none)
        else none := rfl

theorem findParentLoop_unfold_some (t r c : String) (l tp rr b : Int) (cl : Bool)
    (q : UiObj) (a : Nat) :
    findParentLoop (UiObj.mk t r c l tp rr b cl (some q)) a
      = if a < 5 then
          (if cl then some (UiObj.mk t r c l tp rr b cl (some q))
           else findParentLoop q (a + 1))
        else none := rfl

theorem findParentLoop_spec (p : UiObj) (a : Nat) :
    findParentLoop p a = ((p :: p.ancestors).take (5 - a)).find? (fun q => q.clickable) := by
  suffices h : ∀ (m : Nat) (p : UiObj) (a : Nat), 5 - a = m →
      findParentLoop p a
        = ((p :: p.ancestors).take (5 - a)).find? (fun q => q.clickable) from
    h (5 - a) p a rfl
  intro m
  induction m with
  | zero =>
    intro p a hm
    cases p with
    | mk t r c l tp rr b cl par =>
      cases par with
      | none =>
        rw [findParentLoop_unfold_none, if_neg (by omega : ¬ a < 5), hm]
        simp
      | some q =>
        rw [findParentLoop_unfold_some, if_neg (by omega : ¬ a < 5), hm]
        simp
  | succ k ih =>
    intro p a hm
    cases p with
    | mk t r c l tp rr b cl par =>
      cases par with
      | none =>
        rw [findParentLoop_unfold_none, if_pos (by omega : a < 5), hm, List.take_succ_cons]
        cases cl with
        | true =>
          rw [List.find?_cons_of_pos _ (by simp [UiObj.clickable])]
          simp
        | false =>
          rw [List.find?_cons_of_neg _ (by simp [UiObj.clickable])]
          simp [UiObj.ancestors]
      | some q =>
        rw [findParentLoop_unfold_some, if_pos (by omega : a < 5), hm, List.take_succ_cons]
        cases cl with
        | true =>
          rw [List.find?_cons_of_pos _ (by simp [UiObj.clickable])]
          simp
        | false =>
          rw [List.find?_cons_of_neg _ (by simp [UiObj.clickable])]
          have hq := ih q (a + 1) (by omega)
          have hk : 5 - (a + 1) = k := by omega
          rw [hk] at hq
          simp only [UiObj.ancestors, Bool.false_eq_true, if_false]
          exact hq

theorem find_clickable_parent_spec (el : UiObj) :
    _find_clickable_parent el = ((el.ancestors).take 5).find? (fun q => q.clickable) := by
  cases el with
  | mk t r c l tp rr b cl par =>
    cases par with
    | none => simp [_find_clickable_parent, UiObj.parent, UiObj.ancestors]
    | some q =>
      simp only [_find_clickable_parent, UiObj.parent, UiObj.ancestors]
      have h := findParentLoop_spec q 0
      simpa using h

/-- C2: when a text or resource-id lookup finds a non-clickable element and a
clickable ancestor exists within 5 levels, the lookup returns the nearest
such ancestor — with its own bounds and `clickable = true` — instead of the
matched element. -/
theorem ancestor_promotion (dev : List UiObj) (query : String) (exact_match : Bool)
    (el p : UiObj)
    (hel : el.clickable = false)
    (hp : ((el.ancestors).take 5).find? (fun q => q.clickable) = some p) :
    (deviceFindText dev query exact_match = some el →
      find_element_by_text dev query exact_match = some (promotedInfoOf p)) ∧
    (deviceFindId dev query = some el →
      find_element_by_id dev query = some (promotedInfoOf p)) ∧
    p.clickable = true ∧
    (promotedInfoOf p).clickable = true ∧
    (promotedInfoOf p).bounds = (infoOf p).bounds := by
  have hpc : p.clickable = true := by
    have := List.find?_some hp
    simpa using this
  have hfc : _find_clickable_parent el = some p :=
    (find_clickable_parent_spec el).trans hp
  refine ⟨?_, ?_, hpc, rfl, rfl⟩
  · intro hfind
    rw [find_element_by_text, hfind]
    simp [hel, hfc]
  · intro hfind
    rw [find_element_by_id, hfind]
    simp [hel, hfc]

/-- Witness for C2: the non-clickable `Wi-Fi` leaf sitting three levels below
a clickable container resolves to that container, not to the leaf. -/
theorem ancestor_promotion_witness :
    find_element_by_text Fixtures.wifiDevice "Wi-Fi" true
      = some (promotedInfoOf Fixtures.wifiAncestor3) ∧
    (promotedInfoOf Fixtures.wifiAncestor3).clickable = true := by
  have h := ancestor_promotion Fixtures.wifiDevice "Wi-Fi" true Fixtures.wifiLeaf
    Fixtures.wifiAncestor3 rfl rfl
  exact ⟨h.1 rfl, h.2.2.2.1⟩

end AutoTest.EParse

namespace AutoTest.EDict

theorem fuzzyScan_eq_find (idx : List (String × Nat)) (q : String) :
    fuzzyScan idx q
      = (idx.find? (fun kv => strIn (pyLower q) (pyLower kv.1))).map Prod.snd := by
  induction idx with
  | nil => rfl
  | cons kv rest ih =>
    obtain ⟨k, eid⟩ := kv
    by_cases h : strIn (pyLower q) (pyLower k) = true
    · rw [fuzzyScan, if_pos h, List.find?_cons_of_pos _ (by simpa using h)]
      rfl
    · rw [Bool.not_eq_true] at h
      rw [fuzzyScan, if_neg (by simp [h]), List.find?_cons_of_neg _ (by simpa using h)]
      exact ih

theorem fuzzyScan_append (a b : List (String × Nat)) (q : String) :
    fuzzyScan (a ++ b) q
      = match fuzzyScan a q with
        | some e => some e
        | none => fuzzyScan b q := by
  induction a with
  | nil => simp [fuzzyScan]
  | cons kv rest ih =>
    obtain ⟨k, eid⟩ := kv
    by_cases h : strIn (pyLower q) (pyLower k) = true
    · simp [fuzzyScan, h]
    · rw [Bool.not_eq_true] at h
      simp [fuzzyScan, h, ih]

theorem find_element_auto_of_exact_none (d : Dict) (q : String)
    (h1 : dget d.by_text q = none) (h2 : dget d.by_resource_id q = none)
    (h3 : dget d.by_content_desc q = none) :
    find_element d q "auto"
      = (find_element_id_fuzzy d q).bind (fun eid => dget d.elements eid) := by
  cases hf : find_element_id_fuzzy d q with
  | some eid => simp [find_element, find_element_id, h1, h2, h3, hf]
  | none => simp [find_element, find_element_id, h1, h2, h3, hf]

/-- C1: `auto` resolution tries exact matches text → resource key → content
description, first hit wins; the case-insensitive substring pass runs only
when every exact lookup missed, and scans text keys before resource-id keys
before content-description keys, first hit wins. -/
theorem resolution_order (d : Dict) (q : String) :
    (∀ eid, dget d.by_text q = some eid →
      find_element d q "auto" = dget d.elements eid) ∧
    (dget d.by_text q = none → ∀ eid, dget d.by_resource_id q = some eid →
      find_element d q "auto" = dget d.elements eid) ∧
    (dget d.by_text q = none → dget d.by_resource_id q = none →
      ∀ eid, dget d.by_content_desc q = some eid →
      find_element d q "auto" = dget d.elements eid) ∧
    (find_element_id_fuzzy d q
      = ((d.by_text ++ d.by_resource_id ++ d.by_content_desc).find?
          (fun kv => strIn (pyLower q) (pyLower kv.1))).map Prod.snd) ∧
    (dget d.by_text q = none → dget d.by_resource_id q = none →
      dget d.by_content_desc q = none →
      find_element d q "auto"
        = (find_element_id_fuzzy d q).bind (fun eid => dget d.elements eid)) := by
  refine ⟨?_, ?_, ?_, ?_, ?_⟩
  · intro eid h
    simp [find_element, find_element_id, h]
  · intro h1 eid h
    simp [find_element, find_element_id, h1, h]
  · intro h1 h2 eid h
    simp [find_element, find_element_id, h1, h2, h]
  · have hcat : find_element_id_fuzzy d q
        = fuzzyScan (d.by_text ++ d.by_resource_id ++ d.by_content_desc) q := by
      rw [fuzzyScan_append, fuzzyScan_append]
      cases h1 : fuzzyScan d.by_text q <;> cases h2 : fuzzyScan d.by_resource_id q <;>
        simp [find_element_id_fuzzy, h1, h2]
    rw [hcat, fuzzyScan_eq_find]
  · exact find_element_auto_of_exact_none d q

/-- Witness for C1: with one node of text `WLAN` and another whose resource
id is `com.android.settings:id/WLAN` (so `WLAN` is even an exact resource
key), the `auto` query `WLAN` returns the text node. -/
theorem resolution_order_witness :
    (find_element Fixtures.wlanDict "WLAN" "auto").map ElemInfo.text = some "WLAN" ∧
    (find_element Fixtures.wlanDict "WLAN" "auto").map ElemInfo.resource_id = some "" := by
  have h := (resolution_order Fixtures.wlanDict "WLAN").1 0 (by decide)
  rw [h]
  exact ⟨by decide, by decide⟩

end AutoTest.EDict

namespace AutoTest.EDict

theorem dget_dinsert_cases [DecidableEq κ] (l : List (κ × α)) (k k' : κ) (v v' : α)
    (h : dget (dinsert k v l) k' = some v') :
    (k' = k ∧ v' = v) ∨ (k' ≠ k ∧ dget l k' = some v') := by
  by_cases hk : k' = k
  · subst hk
    rw [dget_dinsert_self] at h
    injection h with h
    exact Or.inl ⟨rfl, h.symm⟩
  · rw [dget_dinsert_ne _ _ _ _ hk] at h
    exact Or.inr ⟨hk, h⟩

theorem processChild_elements (c : XNode) (i : Nat) (pp : String) (dep : Nat) (st : Dict) :
    (processChild c i pp dep st).elements
      = dinsert st.next_id (elemInfoOf c i pp dep) st.elements := rfl

theorem processChild_next_id (c : XNode) (i : Nat) (pp : String) (dep : Nat) (st : Dict) :
    (processChild c i pp dep st).next_id = st.next_id + 1 := rfl

theorem processChild_by_text (c : XNode) (i : Nat) (pp : String) (dep : Nat) (st : Dict) :
    (processChild c i pp dep st).by_text
      = if (elemInfoOf c i pp dep).text ≠ "" then
          dinsert (elemInfoOf c i pp dep).text st.next_id st.by_text
        else st.by_text := rfl

theorem processChild_by_rid (c : XNode) (i : Nat) (pp : String) (dep : Nat) (st : Dict) :
    (processChild c i pp dep st).by_resource_id
      = if (elemInfoOf c i pp dep).resource_id ≠ "" then
          if hasChar (elemInfoOf c i pp dep).resource_id '/' then
            dinsert (shortId (elemInfoOf c i pp dep).resource_id) st.next_id
              (dinsert (elemInfoOf c i pp dep).resource_id st.next_id st.by_resource_id)
          else dinsert (elemInfoOf c i pp dep).resource_id st.next_id st.by_resource_id
        else st.by_resource_id := rfl

theorem processChild_by_desc (c : XNode) (i : Nat) (pp : String) (dep : Nat) (st : Dict) :
    (processChild c i pp dep st).by_content_desc
      = if (elemInfoOf c i pp dep).desc ≠ "" then
          dinsert (elemInfoOf c i pp dep).desc st.next_id st.by_content_desc
        else st.by_content_desc := rfl

theorem processChild_inv (c : XNode) (i : Nat) (pp : String) (dep : Nat) (st : Dict)
    (h : IndexInv st) : IndexInv (processChild c i pp dep st) := by
  obtain ⟨hF, hRS, hRP, hTS, hDS⟩ := h
  set info := elemInfoOf c i pp dep with hinfo
  have hold_elems : ∀ eid e, dget st.elements eid = some e →
      dget (dinsert st.next_id info st.elements) eid = some e := by
    intro eid e he
    have hne : eid ≠ st.next_id := by
      have := hF eid e he
      omega
    rw [dget_dinsert_ne _ _ _ _ hne]
    exact he
  refine ⟨?_, ?_, ?_, ?_, ?_⟩
  · -- ElemsFresh
    intro eid e h'
    rw [processChild_elements] at h'
    rw [processChild_next_id]
    rcases dget_dinsert_cases _ _ _ _ _ h' with ⟨he, _⟩ | ⟨_, hold⟩
    · omega
    · have := hF eid e hold
      omega
  · -- RidSound
    intro k eid h'
    rw [processChild_by_rid] at h'
    rw [processChild_elements]
    by_cases hrid : info.resource_id ≠ ""
    · rw [if_pos hrid] at h'
      by_cases hslash : hasChar info.resource_id '/' = true
      · rw [if_pos hslash] at h'
        rcases dget_dinsert_cases _ _ _ _ _ h' with ⟨hk, he⟩ | ⟨_, h''⟩
        · subst he
          exact ⟨info, dget_dinsert_self _ _ _, Or.inr ⟨hslash, hk.symm⟩⟩
        · rcases dget_dinsert_cases _ _ _ _ _ h'' with ⟨hk2, he2⟩ | ⟨_, h3⟩
          · subst he2
            exact ⟨info, dget_dinsert_self _ _ _, Or.inl hk2.symm⟩
          · obtain ⟨e, he, hdis⟩ := hRS k eid h3
            exact ⟨e, hold_elems _ _ he, hdis⟩
      · rw [if_neg hslash] at h'
        rcases dget_dinsert_cases _ _ _ _ _ h' with ⟨hk, he⟩ | ⟨_, h''⟩
        · subst he
          exact ⟨info, dget_dinsert_self _ _ _, Or.inl hk.symm⟩
        · obtain ⟨e, he, hdis⟩ := hRS k eid h''
          exact ⟨e, hold_elems _ _ he, hdis⟩
    · rw [if_neg hrid] at h'
      obtain ⟨e, he, hdis⟩ := hRS k eid h'
      exact ⟨e, hold_elems _ _ he, hdis⟩
  · -- RidKeysPresent
    intro eid e h' hrid
    rw [processChild_elements] at h'
    rw [processChild_by_rid]
    rcases dget_dinsert_cases _ _ _ _ _ h' with ⟨_, he⟩ | ⟨_, hold⟩
    · subst he
      rw [if_pos hrid]
      constructor
      · by_cases hslash : hasChar info.resource_id '/' = true
        · rw [if_pos hslash]
          have hne : info.resource_id ≠ shortId info.resource_id :=
            fun hh => shortId_ne_of_slash hslash hh.symm
          rw [dget_dinsert_ne _ _ _ _ hne, dget_dinsert_self]
          rfl
        · rw [if_neg hslash, dget_dinsert_self]
          rfl
      · intro hslash
        rw [if_pos hslash, dget_dinsert_self]
        rfl
    · obtain ⟨hfull, hshort⟩ := hRP eid e hold hrid
      by_cases hrid0 : info.resource_id ≠ ""
      · rw [if_pos hrid0]
        by_cases hslash : hasChar info.resource_id '/' = true
        · rw [if_pos hslash]
          exact ⟨dget_dinsert_isSome _ _ _ _ (dget_dinsert_isSome _ _ _ _ hfull),
                 fun hs => dget_dinsert_isSome _ _ _ _ (dget_dinsert_isSome _ _ _ _ (hshort hs))⟩
        · rw [if_neg hslash]
          exact ⟨dget_dinsert_isSome _ _ _ _ hfull,
                 fun hs => dget_dinsert_isSome _ _ _ _ (hshort hs)⟩
      · rw [if_neg hrid0]
        exact ⟨hfull, hshort⟩
  · -- TextSound
    intro k eid h'
    rw [processChild_by_text] at h'
    rw [processChild_elements]
    by_cases htext : info.text ≠ ""
    · rw [if_pos htext] at h'
      rcases dget_dinsert_cases _ _ _ _ _ h' with ⟨hk, he⟩ | ⟨_, h''⟩
      · subst he
        exact ⟨hk ▸ htext, info, dget_dinsert_self _ _ _, hk.symm⟩
      · obtain ⟨hk0, e, he, het⟩ := hTS k eid h''
        exact ⟨hk0, e, hold_elems _ _ he, het⟩
    · rw [if_neg htext] at h'
      obtain ⟨hk0, e, he, het⟩ := hTS k eid h'
      exact ⟨hk0, e, hold_elems _ _ he, het⟩
  · -- DescSound
    intro k eid h'
    rw [processChild_by_desc] at h'
    rw [processChild_elements]
    by_cases hdesc : info.desc ≠ ""
    · rw [if_pos hdesc] at h'
      rcases dget_dinsert_cases _ _ _ _ _ h' with ⟨hk, he⟩ | ⟨_, h''⟩
      · subst he
        exact ⟨hk ▸ hdesc, info, dget_dinsert_self _ _ _, hk.symm⟩
      · obtain ⟨hk0, e, he, het⟩ := hDS k eid h''
        exact ⟨hk0, e, hold_elems _ _ he, het⟩
    · rw [if_neg hdesc] at h'
      obtain ⟨hk0, e, he, het⟩ := hDS k eid h'
      exact ⟨hk0, e, hold_elems _ _ he, het⟩

mutual

theorem parseChildren_inv : ∀ (l : List XNode) (i : Nat) (pp : String) (d : Nat)
    (st : Dict), IndexInv st → IndexInv (parseChildren l i pp d st)
  | [], _, _, _, _ => fun h => h
  | c :: rest, i, pp, d, st => fun h =>
    parseChildren_inv rest (i + 1) pp d _
      (parseNode_inv c (childPath c i pp) (d + 1) _ (processChild_inv c i pp d st h))

theorem parseNode_inv : ∀ (n : XNode) (pp : String) (d : Nat) (st : Dict),
    IndexInv st → IndexInv (parseNode n pp d st)
  | .mk _ ch, pp, d, st => fun h => parseChildren_inv ch 0 pp d st h

end

theorem emptyDict_inv : IndexInv emptyDict :=
  ⟨fun _ _ h => by simp [emptyDict, dget] at h,
   fun _ _ h => by simp [emptyDict, dget] at h,
   fun _ _ h => by simp [emptyDict, dget] at h,
   fun _ _ h => by simp [emptyDict, dget] at h,
   fun _ _ h => by simp [emptyDict, dget] at h⟩

theorem loadDict_inv (root : XNode) : IndexInv (loadDict root) :=
  parseNode_inv root "" 0 emptyDict emptyDict_inv

end AutoTest.EDict

namespace AutoTest.EDict

theorem find_element_id_rid (d : Dict) (q : String) :
    find_element_id d q "resource_id" = dget d.by_resource_id q := rfl

/-- C8: in a built index, an element whose resource id contains `/` is bound
under both the full id and its short form (suffix after the last `/`), so an
exact resource-id lookup with either identifier returns the same element —
provided no other parsed element binds either key (the last-writer-wins
caveat). -/
theorem short_resource_id_lookup (root : XNode) (r : String) (eid : Nat)
    (hr : hasChar r '/' = true)
    (hmem : (dget (loadDict root).elements eid).map ElemInfo.resource_id = some r)
    (huniq : ∀ p ∈ (loadDict root).elements,
      (p.2.resource_id = r ∨ p.2.resource_id = shortId r ∨
        (hasChar p.2.resource_id '/' = true ∧ shortId p.2.resource_id = shortId r)) →
      p.1 = eid) :
    find_element_id (loadDict root) r "resource_id" = some eid ∧
    find_element_id (loadDict root) (shortId r) "resource_id" = some eid := by
  obtain ⟨-, hRS, hRP, -, -⟩ := loadDict_inv root
  cases he' : dget (loadDict root).elements eid with
  | none =>
    rw [he'] at hmem
    simp at hmem
  | some e =>
    rw [he'] at hmem
    rw [show (some e).map ElemInfo.resource_id = some e.resource_id from rfl] at hmem
    injection hmem with hmem
    have hrne : e.resource_id ≠ "" := by
      rw [hmem]
      exact hasChar_ne_empty hr
    obtain ⟨hfull, hshortP⟩ := hRP eid e he' hrne
    have hslashE : hasChar e.resource_id '/' = true := by rw [hmem]; exact hr
    constructor
    · rw [find_element_id_rid]
      cases hx : dget (loadDict root).by_resource_id r with
      | none =>
        rw [hmem, hx] at hfull
        simp at hfull
      | some eid1 =>
        obtain ⟨e1, he1, hdis⟩ := hRS r eid1 hx
        have heq : eid1 = eid := by
          apply huniq (eid1, e1) (dget_mem _ _ _ he1)
          rcases hdis with hh | ⟨_, hsh⟩
          · exact Or.inl hh
          · exfalso
            have hns := shortId_no_slash e1.resource_id
            rw [hsh, hr] at hns
            exact absurd hns (by simp)
        rw [heq]
    · rw [find_element_id_rid]
      have hsome := hshortP hslashE
      rw [hmem] at hsome
      cases hx : dget (loadDict root).by_resource_id (shortId r) with
      | none =>
        rw [hx] at hsome
        simp at hsome
      | some eid2 =>
        obtain ⟨e2, he2, hdis⟩ := hRS (shortId r) eid2 hx
        have heq : eid2 = eid := by
          apply huniq (eid2, e2) (dget_mem _ _ _ he2)
          rcases hdis with hh | ⟨hs2, hsh2⟩
          · exact Or.inr (Or.inl hh)
          · exact Or.inr (Or.inr ⟨hs2, hsh2⟩)
        rw [heq]

/-- Witness for C8: `com.android.settings:id/WLAN_item` and its short id
`WLAN_item` both resolve to the same element. -/
theorem short_resource_id_lookup_witness :
    find_element_id (loadDict Fixtures.shortIdTree)
      "com.android.settings:id/WLAN_item" "resource_id" = some 0 ∧
    find_element_id (loadDict Fixtures.shortIdTree) "WLAN_item" "resource_id" = some 0 := by
  have h := short_resource_id_lookup Fixtures.shortIdTree
    "com.android.settings:id/WLAN_item" 0 (by decide) (by decide) (by decide)
  refine ⟨h.1, ?_⟩
  have h2 := h.2
  rwa [show shortId "com.android.settings:id/WLAN_item" = "WLAN_item" from by decide] at h2

/-- C9 (amended): on a built index whose `by_text` table is non-empty and
whose `by_resource_id` table has no empty key (no resource id ends in `/`),
the empty `auto` query resolves — through the fuzzy pass — to the first
text-indexed element, never to a not-found result. -/
theorem empty_query_resolves (root : XNode)
    (h1 : (loadDict root).by_text ≠ [])
    (h2 : dget (loadDict root).by_resource_id "" = none) :
    ∃ k eid e, (loadDict root).by_text.head? = some (k, eid) ∧
      dget (loadDict root).elements eid = some e ∧
      find_element (loadDict root) "" "auto" = some e := by
  obtain ⟨-, -, -, hTS, hDS⟩ := loadDict_inv root
  cases hbt : (loadDict root).by_text with
  | nil => exact absurd hbt h1
  | cons kv rest =>
    obtain ⟨k, eid⟩ := kv
    have hget : dget (loadDict root).by_text k = some eid := by
      rw [hbt]
      simp [dget]
    obtain ⟨-, e, he, -⟩ := hTS k eid hget
    refine ⟨k, eid, e, rfl, he, ?_⟩
    have htx : dget (loadDict root).by_text "" = none := by
      cases hx : dget (loadDict root).by_text "" with
      | none => rfl
      | some eidx => exact absurd rfl (hTS "" eidx hx).1
    have hdx : dget (loadDict root).by_content_desc "" = none := by
      cases hx : dget (loadDict root).by_content_desc "" with
      | none => rfl
      | some eidx => exact absurd rfl (hDS "" eidx hx).1
    have hstr : strIn (pyLower "") (pyLower k) = true := by
      rw [show pyLower "" = "" from rfl]
      exact strIn_empty_needle _
    have hfz : find_element_id_fuzzy (loadDict root) "" = some eid := by
      have hscan : fuzzyScan (loadDict root).by_text "" = some eid := by
        rw [hbt]
        simp [fuzzyScan, hstr]
      simp [find_element_id_fuzzy, hscan]
    rw [find_element_auto_of_exact_none (loadDict root) "" htx h2 hdx, hfz]
    simpa using he

/-- Witness for C9 (amended): on a screen with a `Network` text node and an
ordinary resource id, the empty query resolves to some element. -/
theorem empty_query_resolves_witness :
    ∃ k eid e, (loadDict Fixtures.emptyQueryTree).by_text.head? = some (k, eid) ∧
      dget (loadDict Fixtures.emptyQueryTree).elements eid = some e ∧
      find_element (loadDict Fixtures.emptyQueryTree) "" "auto" = some e :=
  empty_query_resolves Fixtures.emptyQueryTree (by decide) (by decide)

/-- C9 (counterexample): with a resource id ending in `/`, the short-id
indexing binds the empty string as an exact resource key, so the empty query
resolves to that element — whose text is empty, hence not text-indexed —
rather than to the first text-indexed element via fuzzy matching. -/
theorem empty_query_counterexample :
    (loadDict Fixtures.slashTree).by_text = [("Network", 0)] ∧
    (find_element (loadDict Fixtures.slashTree) "" "auto").map ElemInfo.text = some "" ∧
    (find_element (loadDict Fixtures.slashTree) "" "auto").map ElemInfo.resource_id
      = some "com.android.settings:id/" := by
  decide

end AutoTest.EDict
